import Mathlib

/-!
Verification development for the phosphor terminal-emulator core.

The definitions below are a shallow embedding of the Rust sources:
`phosphor-common/src/types.rs`, `phosphor-core/src/terminal/{buffer,cursor,state}.rs`,
`phosphor-core/src/ansi.rs`, `phosphor-parser/src/lib.rs` and the coordinator
loop in `phosphor-core/src/lib.rs`.  Machine integers (`u16`, `u8`) are
modelled as `Nat`; saturating operations use truncated subtraction and an
explicit cap at 65535, and the places where the Rust code performs a plain
(panicking-on-underflow) subtraction are modelled explicitly.
-/

namespace Phosphor

/-- `u16::saturating_add` on the `Nat` model: capped at 65535. -/
def u16SatAdd (a b : Nat) : Nat := min (a + b) 65535

/-- Release-mode `u16` subtraction of 1 (wraps on underflow).  Debug builds
panic instead; the panicking behaviour is modelled separately where a claim
depends on it. -/
def u16WrapSub1 (a : Nat) : Nat := if a = 0 then 65535 else a - 1

/-- Terminal dimensions (`Size` in types.rs, fields `rows`, `cols` of type `u16`). -/
structure Size where
  rows : Nat
  cols : Nat
deriving DecidableEq, Repr

/-- Cursor position, 0-indexed (`Position` in types.rs). -/
structure Position where
  row : Nat
  col : Nat
deriving DecidableEq, Repr

/-- Colors (`Color` in types.rs). -/
inductive Color where
  | default
  | black | red | green | yellow | blue | magenta | cyan | white
  | brightBlack | brightRed | brightGreen | brightYellow
  | brightBlue | brightMagenta | brightCyan | brightWhite
  | indexed (n : Nat)
  | rgb (r g b : Nat)
deriving DecidableEq, Repr

/-- `Color::from_ansi`: convert a 4-bit ANSI color index to a `Color`. -/
def Color.from_ansi (index : Nat) : Color :=
  match index with
  | 0 => .black
  | 1 => .red
  | 2 => .green
  | 3 => .yellow
  | 4 => .blue
  | 5 => .magenta
  | 6 => .cyan
  | 7 => .white
  | 8 => .brightBlack
  | 9 => .brightRed
  | 10 => .brightGreen
  | 11 => .brightYellow
  | 12 => .brightBlue
  | 13 => .brightMagenta
  | 14 => .brightCyan
  | 15 => .brightWhite
  | _ => .indexed index

/-- The `AttributeFlags` bit set of types.rs, one `Bool` per bit. -/
structure AttributeFlags where
  bold : Bool
  italic : Bool
  underline : Bool
  strikethrough : Bool
  blinkSlow : Bool
  blinkFast : Bool
  reverseVideo : Bool
  hidden : Bool
  dim : Bool
  doubleUnderline : Bool
  curlyUnderline : Bool
  dottedUnderline : Bool
  dashedUnderline : Bool
deriving DecidableEq, Repr

/-- `AttributeFlags::empty()`. -/
def AttributeFlags.empty : AttributeFlags :=
  ⟨false, false, false, false, false, false, false, false, false, false, false, false, false⟩

/-- `CellAttributes` of types.rs. -/
structure CellAttributes where
  fg_color : Color
  bg_color : Color
  flags : AttributeFlags
  underline_color : Option Color
deriving DecidableEq, Repr

/-- `CellAttributes::default()`. -/
def CellAttributes.default : CellAttributes :=
  ⟨Color.default, Color.default, AttributeFlags.empty, none⟩

/-- A character cell (`Cell` in types.rs). -/
structure Cell where
  ch : Char
  attrs : CellAttributes
  hyperlink : Option String
deriving DecidableEq, Repr

/-- `Cell::new`. -/
def Cell.new (ch : Char) : Cell := ⟨ch, CellAttributes.default, none⟩

/-- `Cell::with_attrs`. -/
def Cell.with_attrs (ch : Char) (attrs : CellAttributes) : Cell := ⟨ch, attrs, none⟩

/-- `Cell::blank()`: a space with default attributes. -/
def Cell.blank : Cell := Cell.new ' '

/-- The `TerminalMode` bit set of types.rs, one `Bool` per bit. -/
structure TerminalMode where
  echo : Bool
  raw : Bool
  lineWrap : Bool
  cursorVisible : Bool
  cursorBlinking : Bool
  alternateScreen : Bool
  bracketedPaste : Bool
  focusReporting : Bool
  mouseReporting : Bool
  mouseMotion : Bool
  mouseSgr : Bool
  applicationCursor : Bool
  applicationKeypad : Bool
  originMode : Bool
  insertMode : Bool
  reverseVideoMode : Bool
deriving DecidableEq, Repr

/-- `TerminalMode::default()`: `LINE_WRAP | CURSOR_VISIBLE | ECHO`. -/
def TerminalMode.default : TerminalMode where
  echo := true
  raw := false
  lineWrap := true
  cursorVisible := true
  cursorBlinking := false
  alternateScreen := false
  bracketedPaste := false
  focusReporting := false
  mouseReporting := false
  mouseMotion := false
  mouseSgr := false
  applicationCursor := false
  applicationKeypad := false
  originMode := false
  insertMode := false
  reverseVideoMode := false

/-- `CursorStyle` of types.rs. -/
inductive CursorStyle where
  | block | underline | bar | blinkingBlock | blinkingUnderline | blinkingBar
deriving DecidableEq, Repr

/-- Screen buffer (`ScreenBuffer` in buffer.rs): a vector of rows of cells. -/
structure ScreenBuffer where
  lines : List (List Cell)
  size : Size
deriving DecidableEq, Repr

namespace ScreenBuffer

/-- `ScreenBuffer::new`. -/
def new (size : Size) : ScreenBuffer :=
  ⟨List.replicate size.rows (List.replicate size.cols Cell.blank), size⟩

/-- `ScreenBuffer::set_cell`: bounds-checked write. -/
def set_cell (b : ScreenBuffer) (pos : Position) (cell : Cell) : ScreenBuffer :=
  if pos.row < b.size.rows ∧ pos.col < b.size.cols then
    { b with lines := b.lines.set pos.row ((b.lines.getD pos.row []).set pos.col cell) }
  else b

/-- `ScreenBuffer::get_cell`: bounds-checked read, blank outside. -/
def get_cell (b : ScreenBuffer) (pos : Position) : Cell :=
  if pos.row < b.size.rows ∧ pos.col < b.size.cols then
    (b.lines.getD pos.row []).getD pos.col Cell.blank
  else Cell.blank

/-- `ScreenBuffer::get_line`. -/
def get_line (b : ScreenBuffer) (row : Nat) : Option (List Cell) :=
  if row < b.size.rows then some (b.lines.getD row []) else none

/-- `ScreenBuffer::remove_top_line`: pop the first row, returning it. -/
def remove_top_line (b : ScreenBuffer) : Option (List Cell) × ScreenBuffer :=
  match b.lines with
  | [] => (none, b)
  | l :: rest => (some l, { b with lines := rest })

/-- `ScreenBuffer::add_blank_line`: push a blank row at the bottom. -/
def add_blank_line (b : ScreenBuffer) : ScreenBuffer :=
  { b with lines := b.lines ++ [List.replicate b.size.cols Cell.blank] }

/-- `ScreenBuffer::clear`. -/
def clear (b : ScreenBuffer) : ScreenBuffer :=
  { b with lines := b.lines.map (fun line => line.map (fun _ => Cell.blank)) }

/-- `ScreenBuffer::clear_line`. -/
def clear_line (b : ScreenBuffer) (row : Nat) : ScreenBuffer :=
  if row < b.size.rows then
    { b with lines := b.lines.set row ((b.lines.getD row []).map (fun _ => Cell.blank)) }
  else b

/-- Modelled from the spec: `clear_cell(pos)` (listed in §4.1 and called from
ansi.rs but absent from the buffer.rs under src/) resets the cell at `pos` to
the blank cell; erase uses default attributes per §4.6. -/
def clear_cell (b : ScreenBuffer) (pos : Position) : ScreenBuffer :=
  b.set_cell pos Cell.blank

/-- Modelled from the spec: `insert_blank_line(row)` (listed in §4.1 and called
from state.rs `scroll_down` but absent from the buffer.rs under src/) inserts a
blank row before index `row`. -/
def insert_blank_line (b : ScreenBuffer) (row : Nat) : ScreenBuffer :=
  { b with lines := b.lines.take row ++ [List.replicate b.size.cols Cell.blank] ++ b.lines.drop row }

/-- Modelled from the spec: `remove_bottom_line()` (listed in §4.1 and called
from state.rs `scroll_down` but absent from the buffer.rs under src/) drops the
last row. -/
def remove_bottom_line (b : ScreenBuffer) : ScreenBuffer :=
  { b with lines := b.lines.dropLast }

/-- `ScreenBuffer::resize`: adjust column count of each row, then row count. -/
def resize (b : ScreenBuffer) (new_size : Size) : ScreenBuffer :=
  let lines := b.lines.map (fun line =>
    if b.size.cols < new_size.cols then
      line ++ List.replicate (new_size.cols - b.size.cols) Cell.blank
    else if new_size.cols < b.size.cols then
      line.take new_size.cols
    else line)
  let lines :=
    if b.size.rows < new_size.rows then
      lines ++ List.replicate (new_size.rows - b.size.rows) (List.replicate new_size.cols Cell.blank)
    else if new_size.rows < b.size.rows then
      lines.take new_size.rows
    else lines
  ⟨lines, new_size⟩

end ScreenBuffer

/-- Scrollback buffer (`ScrollbackBuffer` in buffer.rs): a bounded FIFO of
lines; the head of `lines` is the oldest line. -/
structure ScrollbackBuffer where
  lines : List (List Cell)
  max_lines : Nat
deriving DecidableEq, Repr

namespace ScrollbackBuffer

/-- `ScrollbackBuffer::new`. -/
def new (max_lines : Nat) : ScrollbackBuffer := ⟨[], max_lines⟩

/-- `ScrollbackBuffer::push`: when already at (or beyond) capacity, pop the
oldest line first, then append.  `VecDeque::pop_front` on an empty deque is a
no-op, which `List.tail` mirrors. -/
def push (b : ScrollbackBuffer) (line : List Cell) : ScrollbackBuffer :=
  let lines := if b.max_lines ≤ b.lines.length then b.lines.tail else b.lines
  { b with lines := lines ++ [line] }

/-- `ScrollbackBuffer::len`. -/
def len (b : ScrollbackBuffer) : Nat := b.lines.length

/-- `ScrollbackBuffer::get_line` (0 is oldest). -/
def get_line (b : ScrollbackBuffer) (index : Nat) : Option (List Cell) :=
  b.lines[index]?

/-- `ScrollbackBuffer::clear`. -/
def clear (b : ScrollbackBuffer) : ScrollbackBuffer := { b with lines := [] }

end ScrollbackBuffer

/-- Cursor state (`Cursor` in cursor.rs). -/
structure Cursor where
  position : Position
  saved_position : Option Position
  visible : Bool
deriving DecidableEq, Repr

namespace Cursor

/-- `Cursor::new`. -/
def new : Cursor := ⟨⟨0, 0⟩, none, true⟩

/-- `Cursor::set_position`. -/
def set_position (c : Cursor) (pos : Position) : Cursor := { c with position := pos }

/-- `Cursor::set_row`. -/
def set_row (c : Cursor) (row : Nat) : Cursor := { c with position.row := row }

/-- `Cursor::set_col` / `Cursor::set_column`. -/
def set_column (c : Cursor) (col : Nat) : Cursor := { c with position.col := col }

/-- `Cursor::move_up` (saturating). -/
def move_up (c : Cursor) (n : Nat) : Cursor := { c with position.row := c.position.row - n }

/-- `Cursor::move_down` (`saturating_add`). -/
def move_down (c : Cursor) (n : Nat) : Cursor :=
  { c with position.row := u16SatAdd c.position.row n }

/-- `Cursor::move_left` (saturating). -/
def move_left (c : Cursor) (n : Nat) : Cursor := { c with position.col := c.position.col - n }

/-- `Cursor::move_right` (`saturating_add`). -/
def move_right (c : Cursor) (n : Nat) : Cursor :=
  { c with position.col := u16SatAdd c.position.col n }

/-- `Cursor::saturating_left`: move left one column, saturating at 0. -/
def saturating_left (c : Cursor) : Cursor := { c with position.col := c.position.col - 1 }

end Cursor

/-- Control events (`ControlEvent` in traits.rs). -/
inductive ControlEvent where
  | newLine | carriageReturn | tab | backspace | clearEvent | bell | formFeed | verticalTab
deriving DecidableEq, Repr

/-- Erase modes (`EraseMode` in traits.rs). -/
inductive EraseMode where
  | below | above | all | saved
deriving DecidableEq, Repr

/-- SGR parameters (`SgrParameter` in traits.rs). -/
inductive SgrParameter where
  | reset
  | bold | dim | italic | underline | blink | reverseVideo | hidden | strikethrough
  | noBold | noDim | noItalic | noUnderline | noBlink | noReverse | noHidden | noStrikethrough
  | foreground (c : Color)
  | background (c : Color)
  | underlineColor (c : Color)
  | defaultForeground
  | defaultBackground
  | defaultUnderlineColor
deriving DecidableEq, Repr

/-- Terminal modes settable by SM/RM (`Mode` in traits.rs). -/
inductive Mode where
  | keyboardAction | insert | sendReceive | lineFeed
  | applicationCursor | applicationKeypad | columnMode | scrollMode | screenMode
  | originMode | autoWrap | autoRepeat | mouseReporting | cursorVisible
  | alternateScreen | bracketedPaste | focusReporting
deriving DecidableEq, Repr

/-- CSI sequences (`CsiSequence` in traits.rs). -/
inductive CsiSequence where
  | cursorUp (n : Nat)
  | cursorDown (n : Nat)
  | cursorForward (n : Nat)
  | cursorBack (n : Nat)
  | cursorPosition (row col : Nat)
  | cursorColumn (col : Nat)
  | cursorNextLine (n : Nat)
  | cursorPreviousLine (n : Nat)
  | eraseDisplay (mode : EraseMode)
  | eraseLine (mode : EraseMode)
  | scrollUp (n : Nat)
  | scrollDown (n : Nat)
  | setGraphicsRendition (params : List SgrParameter)
  | showCursor
  | hideCursor
  | setMode (modes : List Mode)
  | resetMode (modes : List Mode)
  | deviceStatusReport
  | cursorPositionReport
  | saveCursor
  | restoreCursor
deriving DecidableEq, Repr

/-- Clipboard kinds (`ClipboardType` in traits.rs). -/
inductive ClipboardType where
  | clipboard | primary | secondary
deriving DecidableEq, Repr

/-- OSC sequences (`OscSequence` in traits.rs). -/
inductive OscSequence where
  | setTitle (title : String)
  | setIcon (icon : String)
  | setHyperlink (id : Option String) (uri : String)
  | resetHyperlink
  | setColor (index : Nat) (color : Color)
  | resetColor (index : Nat)
  | clipboardOp (clip : ClipboardType) (data : String)
deriving DecidableEq, Repr

/-- ESC sequences (`EscSequence` in traits.rs). -/
inductive EscSequence where
  | index | nextLine | tabSet | reverseIndex
  | keypadApplicationMode | keypadNumericMode
  | saveCursor | restoreCursor | reset
deriving DecidableEq, Repr

/-- Events produced by the byte-stream processing (`ParsedEvent` in traits.rs). -/
inductive ParsedEvent where
  | text (s : String)
  | control (c : ControlEvent)
  | csi (c : CsiSequence)
  | osc (o : OscSequence)
  | esc (e : EscSequence)
deriving DecidableEq, Repr

/-- Terminal state machine (`TerminalState` in state.rs). -/
structure TerminalState where
  size : Size
  cursor : Cursor
  saved_cursor : Option Cursor
  screen_buffer : ScreenBuffer
  alternate_buffer : Option ScreenBuffer
  scrollback_buffer : ScrollbackBuffer
  mode : TerminalMode
  cursor_style : CursorStyle
  active_attributes : CellAttributes
  color_palette : List Color
  tab_stops : List Nat
deriving DecidableEq, Repr

namespace TerminalState

/-- `TerminalState::default_palette`: 16 base colors, 6×6×6 cube, 24 grays. -/
def default_palette : List Color :=
  ((List.range 16).map Color.from_ansi)
  ++ ((List.range 6).flatMap (fun r => (List.range 6).flatMap (fun g => (List.range 6).map (fun b =>
        Color.rgb (if r = 0 then 0 else 55 + r * 40)
                  (if g = 0 then 0 else 55 + g * 40)
                  (if b = 0 then 0 else 55 + b * 40)))))
  ++ ((List.range 24).map (fun i => Color.rgb (8 + i * 10) (8 + i * 10) (8 + i * 10)))

/-- `TerminalState::default_tab_stops`: every 8 columns (`(0..cols).step_by(8)`). -/
def default_tab_stops (cols : Nat) : List Nat :=
  (List.range cols).filter (fun c => c % 8 = 0)

/-- `TerminalState::new`. -/
def new (size : Size) : TerminalState where
  size := size
  cursor := Cursor.new
  saved_cursor := none
  screen_buffer := ScreenBuffer.new size
  alternate_buffer := none
  scrollback_buffer := ScrollbackBuffer.new 10000
  mode := TerminalMode.default
  cursor_style := CursorStyle.block
  active_attributes := CellAttributes.default
  color_palette := default_palette
  tab_stops := default_tab_stops size.cols

/-- `TerminalState::scroll_up`: move the top row into scrollback, append a
blank row. -/
def scroll_up (s : TerminalState) : TerminalState :=
  let (top, buf) := s.screen_buffer.remove_top_line
  let s := match top with
    | some line => { s with screen_buffer := buf,
                            scrollback_buffer := s.scrollback_buffer.push line }
    | none => { s with screen_buffer := buf }
  { s with screen_buffer := s.screen_buffer.add_blank_line }

/-- `TerminalState::scroll_down`: blank line at top, drop the bottom line. -/
def scroll_down (s : TerminalState) : TerminalState :=
  { s with screen_buffer := (s.screen_buffer.insert_blank_line 0).remove_bottom_line }

/-- `TerminalState::new_line`: move down one row; scrolling is deferred to the
next printable write, so the cursor may sit on the virtual row `rows`. -/
def new_line (s : TerminalState) : TerminalState :=
  { s with cursor := s.cursor.move_down 1 }

/-- `TerminalState::carriage_return`. -/
def carriage_return (s : TerminalState) : TerminalState :=
  { s with cursor := s.cursor.set_column 0 }

/-- `TerminalState::tab`: move to the next tab stop strictly greater than the
current column, falling back to `cols - 1`.  The fallback `self.size.cols - 1`
is evaluated eagerly by `unwrap_or`; its underflow at `cols = 0` is modelled by
`u16WrapSub1` (release semantics) here and by `tab_fallback?` (debug
semantics) below. -/
def tab (s : TerminalState) : TerminalState :=
  let current_col := s.cursor.position.col
  let next_tab := (s.tab_stops.find? (fun stop => current_col < stop)).getD (u16WrapSub1 s.size.cols)
  { s with cursor := s.cursor.set_column next_tab }

/-- The eagerly evaluated fallback `self.size.cols - 1` in `tab`, with the
plain `u16` subtraction made explicit: `none` models the debug-build panic on
underflow when `cols = 0`. -/
def tab_fallback? (s : TerminalState) : Option Nat :=
  if 1 ≤ s.size.cols then some (s.size.cols - 1) else none

/-- `TerminalState::advance_cursor`: advance after writing a character,
wrapping (and scrolling) or clamping at the right margin. -/
def advance_cursor (s : TerminalState) : TerminalState :=
  if s.size.rows = 0 ∨ s.size.cols = 0 then s
  else
    let s := { s with cursor := s.cursor.move_right 1 }
    if s.size.cols ≤ s.cursor.position.col then
      if s.mode.lineWrap then
        let s := { s with cursor := (s.cursor.set_column 0).move_down 1 }
        if s.size.rows ≤ s.cursor.position.row then
          let s := s.scroll_up
          { s with cursor := s.cursor.set_row (s.size.rows - 1) }
        else s
      else
        { s with cursor := s.cursor.set_column (s.size.cols - 1) }
    else s

/-- `TerminalState::backspace`. -/
def backspace (s : TerminalState) : TerminalState :=
  let s := { s with cursor := s.cursor.saturating_left }
  let s := s.advance_cursor
  let cell := Cell.with_attrs ' ' s.active_attributes
  let s := { s with screen_buffer := s.screen_buffer.set_cell s.cursor.position cell }
  { s with cursor := s.cursor.saturating_left }

/-- `TerminalState::write_char`. -/
def write_char (s : TerminalState) (ch : Char) : TerminalState :=
  if ch = '\n' then s.new_line
  else if ch = '\r' then s.carriage_return
  else if ch = '\t' then s.tab
  else if ch = '\x08' then s.backspace
  else if ch = '\x00' then s
  else
    if s.size.rows = 0 ∨ s.size.cols = 0 then s
    else
      let s := if s.size.rows ≤ s.cursor.position.row then
          let s := s.scroll_up
          { s with cursor := s.cursor.set_row (s.size.rows - 1) }
        else s
      let cell := Cell.with_attrs ch s.active_attributes
      let s := { s with screen_buffer := s.screen_buffer.set_cell s.cursor.position cell }
      s.advance_cursor

/-- `TerminalState::write_str`. -/
def write_str (s : TerminalState) (str : String) : TerminalState :=
  str.data.foldl write_char s

/-- Debug-build semantics of `write_char`: `none` iff the call panics.  The
only panicking site reachable from `write_char` is the eager `cols - 1`
fallback subtraction in `tab`. -/
def write_char? (s : TerminalState) (ch : Char) : Option TerminalState :=
  if ch = '\t' then
    match s.tab_fallback? with
    | none => none
    | some fb =>
      let current_col := s.cursor.position.col
      let next_tab := (s.tab_stops.find? (fun stop => current_col < stop)).getD fb
      some { s with cursor := s.cursor.set_column next_tab }
  else some (s.write_char ch)

/-- `TerminalState::set_attribute_flag` restricted to one flag: the bitflags
`insert`/`remove` calls in apply_sgr are modelled per flag below. -/
def set_foreground_color (s : TerminalState) (color : Color) : TerminalState :=
  { s with active_attributes.fg_color := color }

/-- `TerminalState::set_background_color`. -/
def set_background_color (s : TerminalState) (color : Color) : TerminalState :=
  { s with active_attributes.bg_color := color }

/-- `TerminalState::set_underline_color`. -/
def set_underline_color (s : TerminalState) (color : Option Color) : TerminalState :=
  { s with active_attributes.underline_color := color }

/-- `TerminalState::reset_attributes`. -/
def reset_attributes (s : TerminalState) : TerminalState :=
  { s with active_attributes := CellAttributes.default }

/-- `TerminalState::cursor_position`: reads clamp to the screen. -/
def cursor_position (s : TerminalState) : Position :=
  ⟨min s.cursor.position.row (s.size.rows - 1), min s.cursor.position.col (s.size.cols - 1)⟩

/-- `TerminalState::set_cursor_position`: no clamping. -/
def set_cursor_position (s : TerminalState) (pos : Position) : TerminalState :=
  { s with cursor := s.cursor.set_position pos }

/-- `TerminalState::set_tab_stop`. -/
def set_tab_stop (s : TerminalState) : TerminalState :=
  let col := s.cursor.position.col
  if s.tab_stops.contains col then s
  else { s with tab_stops := (s.tab_stops ++ [col]).mergeSort (· ≤ ·) }

/-- `TerminalState::enable_alternate_screen`. -/
def enable_alternate_screen (s : TerminalState) : TerminalState :=
  match s.alternate_buffer with
  | some _ => s
  | none =>
    { s with alternate_buffer := some s.screen_buffer
             screen_buffer := ScreenBuffer.new s.size
             mode.alternateScreen := true }

/-- `TerminalState::disable_alternate_screen`. -/
def disable_alternate_screen (s : TerminalState) : TerminalState :=
  match s.alternate_buffer with
  | none => s
  | some main_buffer =>
    { s with screen_buffer := main_buffer
             alternate_buffer := none
             mode.alternateScreen := false }

/-- `TerminalState::save_cursor`: single-slot save of the whole cursor. -/
def save_cursor (s : TerminalState) : TerminalState :=
  { s with saved_cursor := some s.cursor }

/-- `TerminalState::restore_cursor`: `Option::take` empties the slot. -/
def restore_cursor (s : TerminalState) : TerminalState :=
  match s.saved_cursor with
  | none => s
  | some saved => { s with cursor := saved, saved_cursor := none }

/-- `TerminalState::set_cursor_visible` (via the CURSOR_VISIBLE mode bit). -/
def set_cursor_visible (s : TerminalState) (visible : Bool) : TerminalState :=
  { s with mode.cursorVisible := visible }

/-- `TerminalState::set_mode_flag`. -/
def set_mode_flag (s : TerminalState) (m : Mode) (enabled : Bool) : TerminalState :=
  match m with
  | .insert => { s with mode.insertMode := enabled }
  | .autoWrap => { s with mode.lineWrap := enabled }
  | .bracketedPaste => { s with mode.bracketedPaste := enabled }
  | .focusReporting => { s with mode.focusReporting := enabled }
  | .mouseReporting => { s with mode.mouseReporting := enabled }
  | .applicationCursor => { s with mode.applicationCursor := enabled }
  | .applicationKeypad => { s with mode.applicationKeypad := enabled }
  | .originMode => { s with mode.originMode := enabled }
  | _ => s

/-- `TerminalState::resize`. -/
def resize (s : TerminalState) (new_size : Size) : TerminalState :=
  let s := { s with size := new_size
                    screen_buffer := s.screen_buffer.resize new_size
                    tab_stops := default_tab_stops new_size.cols }
  let pos := s.cursor.position
  { s with cursor := s.cursor.set_position ⟨min pos.row (new_size.rows - 1), min pos.col (new_size.cols - 1)⟩ }

end TerminalState

namespace AnsiProcessor

open TerminalState

/-- `AnsiProcessor::apply_sgr`: apply one SGR parameter to the active
attributes.  The `set_attribute_flag(F, b)` calls of ansi.rs set the
corresponding boolean field of `AttributeFlags`. -/
def apply_sgr (s : TerminalState) (param : SgrParameter) : TerminalState :=
  match param with
  | .reset => s.reset_attributes
  | .bold => { s with active_attributes.flags.bold := true }
  | .dim => { s with active_attributes.flags.dim := true }
  | .italic => { s with active_attributes.flags.italic := true }
  | .underline => { s with active_attributes.flags.underline := true }
  | .blink => { s with active_attributes.flags.blinkSlow := true }
  | .reverseVideo => { s with active_attributes.flags.reverseVideo := true }
  | .hidden => { s with active_attributes.flags.hidden := true }
  | .strikethrough => { s with active_attributes.flags.strikethrough := true }
  | .noBold =>
    let s := { s with active_attributes.flags.bold := false }
    { s with active_attributes.flags.dim := false }
  | .noDim => { s with active_attributes.flags.dim := false }
  | .noItalic => { s with active_attributes.flags.italic := false }
  | .noUnderline => { s with active_attributes.flags.underline := false }
  | .noBlink =>
    let s := { s with active_attributes.flags.blinkSlow := false }
    { s with active_attributes.flags.blinkFast := false }
  | .noReverse => { s with active_attributes.flags.reverseVideo := false }
  | .noHidden => { s with active_attributes.flags.hidden := false }
  | .noStrikethrough => { s with active_attributes.flags.strikethrough := false }
  | .foreground color => s.set_foreground_color color
  | .background color => s.set_background_color color
  | .underlineColor color => s.set_underline_color (some color)
  | .defaultForeground => s.set_foreground_color Color.default
  | .defaultBackground => s.set_background_color Color.default
  | .defaultUnderlineColor => s.set_underline_color none

/-- `AnsiProcessor::clear_screen`.  The `for` loops over cell coordinates are
rendered as folds over the same index ranges (`continue`/`break` become range
restrictions). -/
def clear_screen (s : TerminalState) (mode : EraseMode) : TerminalState :=
  let size := s.size
  let cpos := s.cursor_position
  match mode with
  | .below =>
    { s with screen_buffer :=
        (List.range' cpos.row (size.rows - cpos.row)).foldl (fun sb row =>
          ((if row = cpos.row then List.range' cpos.col (size.cols - cpos.col)
            else List.range size.cols)).foldl (fun sb col =>
            sb.clear_cell ⟨row, col⟩) sb) s.screen_buffer }
  | .above =>
    { s with screen_buffer :=
        (List.range (cpos.row + 1)).foldl (fun sb row =>
          ((if row = cpos.row then List.range (min size.cols (cpos.col + 1))
            else List.range size.cols)).foldl (fun sb col =>
            sb.clear_cell ⟨row, col⟩) sb) s.screen_buffer }
  | .all => { s with screen_buffer := s.screen_buffer.clear }
  | .saved => { s with scrollback_buffer := s.scrollback_buffer.clear }

/-- `AnsiProcessor::clear_line`. -/
def clear_line (s : TerminalState) (mode : EraseMode) : TerminalState :=
  let cpos := s.cursor_position
  let cols := s.size.cols
  match mode with
  | .below =>
    { s with screen_buffer :=
        (List.range' cpos.col (cols - cpos.col)).foldl (fun sb col =>
          sb.clear_cell ⟨cpos.row, col⟩) s.screen_buffer }
  | .above =>
    { s with screen_buffer :=
        (List.range (cpos.col + 1)).foldl (fun sb col =>
          sb.clear_cell ⟨cpos.row, col⟩) s.screen_buffer }
  | .all | .saved =>
    { s with screen_buffer :=
        (List.range cols).foldl (fun sb col =>
          sb.clear_cell ⟨cpos.row, col⟩) s.screen_buffer }

/-- `AnsiProcessor::set_mode`. -/
def set_mode (s : TerminalState) (m : Mode) (enabled : Bool) : TerminalState :=
  match m with
  | .insert => s.set_mode_flag .insert enabled
  | .autoWrap => s.set_mode_flag .autoWrap enabled
  | .cursorVisible => s.set_cursor_visible enabled
  | .alternateScreen =>
    if enabled then s.enable_alternate_screen else s.disable_alternate_screen
  | .bracketedPaste => s.set_mode_flag .bracketedPaste enabled
  | .focusReporting => s.set_mode_flag .focusReporting enabled
  | .mouseReporting => s.set_mode_flag .mouseReporting enabled
  | .applicationCursor => s.set_mode_flag .applicationCursor enabled
  | .originMode => s.set_mode_flag .originMode enabled
  | _ => s

/-- `AnsiProcessor::process_csi`. -/
def process_csi (s : TerminalState) (c : CsiSequence) : TerminalState :=
  match c with
  | .cursorUp n => { s with cursor := s.cursor.move_up n }
  | .cursorDown n => { s with cursor := s.cursor.move_down n }
  | .cursorForward n => { s with cursor := s.cursor.move_right n }
  | .cursorBack n => { s with cursor := s.cursor.move_left n }
  | .cursorPosition row col => s.set_cursor_position ⟨row - 1, col - 1⟩
  | .cursorColumn col => { s with cursor := s.cursor.set_column (col - 1) }
  | .cursorNextLine n => { s with cursor := (s.cursor.set_column 0).move_down n }
  | .cursorPreviousLine n => { s with cursor := (s.cursor.set_column 0).move_up n }
  | .eraseDisplay mode => clear_screen s mode
  | .eraseLine mode => clear_line s mode
  | .scrollUp n => (List.range n).foldl (fun s _ => s.scroll_up) s
  | .scrollDown n => (List.range n).foldl (fun s _ => s.scroll_down) s
  | .setGraphicsRendition params => params.foldl apply_sgr s
  | .showCursor => s.set_cursor_visible true
  | .hideCursor => s.set_cursor_visible false
  | .setMode modes => modes.foldl (fun s m => set_mode s m true) s
  | .resetMode modes => modes.foldl (fun s m => set_mode s m false) s
  | .saveCursor => s.save_cursor
  | .restoreCursor => s.restore_cursor
  | .deviceStatusReport => s
  | .cursorPositionReport => s

/-- `AnsiProcessor::process_control`. -/
def process_control (s : TerminalState) (c : ControlEvent) : TerminalState :=
  match c with
  | .newLine => s.write_char '\n'
  | .carriageReturn => s.write_char '\r'
  | .tab => s.write_char '\t'
  | .backspace => s.write_char '\x08'
  | .bell => s
  | .formFeed => clear_screen s .all
  | .verticalTab => s.write_char '\n'
  | .clearEvent => clear_screen s .all

/-- `AnsiProcessor::process_esc`.  `Index` compares against the plain `u16`
subtraction `rows - 1`, modelled with release (wrapping) semantics. -/
def process_esc (s : TerminalState) (e : EscSequence) : TerminalState :=
  match e with
  | .index =>
    let s := { s with cursor := s.cursor.move_down 1 }
    if u16WrapSub1 s.size.rows ≤ s.cursor_position.row then s.scroll_up else s
  | .nextLine => { s with cursor := (s.cursor.set_column 0).move_down 1 }
  | .tabSet => s.set_tab_stop
  | .reverseIndex =>
    if s.cursor_position.row = 0 then s.scroll_down
    else { s with cursor := s.cursor.move_up 1 }
  | .keypadApplicationMode => s.set_mode_flag .applicationKeypad true
  | .keypadNumericMode => s.set_mode_flag .applicationKeypad false
  | .saveCursor => s.save_cursor
  | .restoreCursor => s.restore_cursor
  | .reset => TerminalState.new s.size

/-- `AnsiProcessor::process_osc`: every arm only logs; the state is unchanged. -/
def process_osc (s : TerminalState) (_o : OscSequence) : TerminalState := s

/-- `AnsiProcessor::process_event`. -/
def process_event (s : TerminalState) (event : ParsedEvent) : TerminalState :=
  match event with
  | .text t => s.write_str t
  | .control c => process_control s c
  | .csi c => process_csi s c
  | .osc o => process_osc s o
  | .esc e => process_esc s e

end AnsiProcessor

/-! ### The byte-level VT automaton

`phosphor-parser` drives the external `vte` crate (not part of src/) through
the `Perform` trait.  The automaton below is therefore modelled from the spec
(§4.4): a Williams VT500 byte machine with states Ground, Escape,
EscapeIntermediate, CsiEntry, CsiParam, CsiIntermediate, CsiIgnore, OscString
(plus a consume-and-ignore state for DCS/SOS/PM/APC strings), incremental and
restartable, with UTF-8 decoding of printable text where invalid sequences
are replaced by U+FFFD. -/

/-- The `Perform`-trait callbacks the automaton can fire for one byte
(`hook`/`put`/`unhook` only trace in src and are omitted). -/
inductive VteAction where
  | print (c : Char)
  | execute (byte : Nat)
  | csi_dispatch (params : List Nat) (intermediates : List Nat) (action : Char)
  | esc_dispatch (intermediates : List Nat) (byte : Nat)
  | osc_dispatch (params : List (List Nat)) (bell_terminated : Bool)
deriving DecidableEq, Repr

/-- Modelled from the spec: the states of the VT500 byte automaton (§4.4),
with `utf8Collect` for a partially read UTF-8 scalar and `oscEsc` /
`stringIgnoreEsc` for an ESC seen while inside a string sequence. -/
inductive VtsState where
  | ground
  | escape
  | escapeIntermediate
  | csiEntry
  | csiParam
  | csiIntermediate
  | csiIgnore
  | oscString
  | oscEsc
  | stringIgnore
  | stringIgnoreEsc
  | utf8Collect (need : Nat) (acc : Nat)
deriving DecidableEq, Repr

/-- Modelled from the spec: the automaton state plus the small
parameter-accumulator (§9: tagged-variant state plus parameter accumulator). -/
structure VteMachine where
  state : VtsState
  params : List Nat
  param : Nat
  intermediates : List Nat
  osc_params : List (List Nat)
  osc_cur : List Nat
deriving DecidableEq, Repr

/-- A scalar value as a `Char`, with U+FFFD replacing invalid code points. -/
def charOfCodepoint (n : Nat) : Char :=
  if n.isValidChar then Char.ofNat n else '�'

namespace VteMachine

/-- `vte::Parser::new`. -/
def new : VteMachine := ⟨.ground, [], 0, [], [], []⟩

/-- Clear the parameter accumulator (the `clear` action of the automaton,
performed on entry to Escape). -/
def clearSeq (m : VteMachine) : VteMachine :=
  { m with params := [], param := 0, intermediates := [] }

/-- Enter the Escape state, clearing accumulators. -/
def toEscape (m : VteMachine) : VteMachine :=
  { m.clearSeq with state := .escape }

/-- Modelled from the spec: Ground-state byte handling — C0 controls execute,
0x20–0x7E print, 0x80.. starts UTF-8 collection (invalid bytes print U+FFFD). -/
def stepGround (m : VteMachine) (b : Nat) : VteMachine × List VteAction :=
  if b = 0x1B then (m.toEscape, [])
  else if b < 0x20 then ({ m with state := .ground }, [.execute b])
  else if b ≤ 0x7E then ({ m with state := .ground }, [.print (Char.ofNat b)])
  else if b = 0x7F then ({ m with state := .ground }, [])
  else if 0xC2 ≤ b ∧ b ≤ 0xDF then ({ m with state := .utf8Collect 1 (b % 32) }, [])
  else if 0xE0 ≤ b ∧ b ≤ 0xEF then ({ m with state := .utf8Collect 2 (b % 16) }, [])
  else if 0xF0 ≤ b ∧ b ≤ 0xF4 then ({ m with state := .utf8Collect 3 (b % 8) }, [])
  else ({ m with state := .ground }, [.print '�'])

/-- Modelled from the spec: Escape-state dispatch (`ESC [` → CSI, `ESC ]` →
OSC, DCS/SOS/PM/APC ignored, intermediates collected, final byte dispatched). -/
def stepEscape (m : VteMachine) (b : Nat) : VteMachine × List VteAction :=
  if b = 0x5B then ({ m.clearSeq with state := .csiEntry }, [])
  else if b = 0x5D then ({ m with state := .oscString, osc_params := [], osc_cur := [] }, [])
  else if b = 0x50 ∨ b = 0x58 ∨ b = 0x5E ∨ b = 0x5F then ({ m with state := .stringIgnore }, [])
  else if 0x20 ≤ b ∧ b ≤ 0x2F then
    ({ m with state := .escapeIntermediate, intermediates := m.intermediates ++ [b] }, [])
  else if 0x30 ≤ b ∧ b ≤ 0x7E then
    ({ m with state := .ground }, [.esc_dispatch m.intermediates b])
  else if b = 0x1B then (m.toEscape, [])
  else if b < 0x20 then (m, [.execute b])
  else (m, [])

/-- Modelled from the spec: one byte of the automaton.  `advance` mirrors
`vte::Parser::advance` driving one `Perform` callback batch. -/
def advance (m : VteMachine) (b : Nat) : VteMachine × List VteAction :=
  match m.state with
  | .ground => m.stepGround b
  | .escape => m.stepEscape b
  | .escapeIntermediate =>
    if b = 0x1B then (m.toEscape, [])
    else if 0x20 ≤ b ∧ b ≤ 0x2F then
      ({ m with intermediates := m.intermediates ++ [b] }, [])
    else if 0x30 ≤ b ∧ b ≤ 0x7E then
      ({ m with state := .ground }, [.esc_dispatch m.intermediates b])
    else if b < 0x20 then (m, [.execute b])
    else (m, [])
  | .csiEntry =>
    if b = 0x1B then (m.toEscape, [])
    else if 0x30 ≤ b ∧ b ≤ 0x39 then
      ({ m with state := .csiParam, param := min (m.param * 10 + (b - 0x30)) 65535 }, [])
    else if b = 0x3B then
      ({ m with state := .csiParam, params := m.params ++ [m.param], param := 0 }, [])
    else if b = 0x3A then ({ m with state := .csiIgnore }, [])
    else if 0x3C ≤ b ∧ b ≤ 0x3F then
      ({ m with state := .csiParam, intermediates := m.intermediates ++ [b] }, [])
    else if 0x20 ≤ b ∧ b ≤ 0x2F then
      ({ m with state := .csiIntermediate, intermediates := m.intermediates ++ [b] }, [])
    else if 0x40 ≤ b ∧ b ≤ 0x7E then
      ({ m with state := .ground },
       [.csi_dispatch (m.params ++ [m.param]) m.intermediates (Char.ofNat b)])
    else if b < 0x20 then (m, [.execute b])
    else (m, [])
  | .csiParam =>
    if b = 0x1B then (m.toEscape, [])
    else if 0x30 ≤ b ∧ b ≤ 0x39 then
      ({ m with param := min (m.param * 10 + (b - 0x30)) 65535 }, [])
    else if b = 0x3B then
      ({ m with params := m.params ++ [m.param], param := 0 }, [])
    else if b = 0x3A ∨ (0x3C ≤ b ∧ b ≤ 0x3F) then ({ m with state := .csiIgnore }, [])
    else if 0x20 ≤ b ∧ b ≤ 0x2F then
      ({ m with state := .csiIntermediate, intermediates := m.intermediates ++ [b] }, [])
    else if 0x40 ≤ b ∧ b ≤ 0x7E then
      ({ m with state := .ground },
       [.csi_dispatch (m.params ++ [m.param]) m.intermediates (Char.ofNat b)])
    else if b < 0x20 then (m, [.execute b])
    else (m, [])
  | .csiIntermediate =>
    if b = 0x1B then (m.toEscape, [])
    else if 0x20 ≤ b ∧ b ≤ 0x2F then
      ({ m with intermediates := m.intermediates ++ [b] }, [])
    else if 0x30 ≤ b ∧ b ≤ 0x3F then ({ m with state := .csiIgnore }, [])
    else if 0x40 ≤ b ∧ b ≤ 0x7E then
      ({ m with state := .ground },
       [.csi_dispatch (m.params ++ [m.param]) m.intermediates (Char.ofNat b)])
    else if b < 0x20 then (m, [.execute b])
    else (m, [])
  | .csiIgnore =>
    if b = 0x1B then (m.toEscape, [])
    else if 0x40 ≤ b ∧ b ≤ 0x7E then ({ m with state := .ground }, [])
    else if b < 0x20 then (m, [.execute b])
    else (m, [])
  | .oscString =>
    if b = 0x07 then
      ({ m with state := .ground }, [.osc_dispatch (m.osc_params ++ [m.osc_cur]) true])
    else if b = 0x1B then ({ m with state := .oscEsc }, [])
    else if b = 0x3B then
      ({ m with osc_params := m.osc_params ++ [m.osc_cur], osc_cur := [] }, [])
    else if b < 0x20 then (m, [])
    else ({ m with osc_cur := m.osc_cur ++ [b] }, [])
  | .oscEsc =>
    if b = 0x5C then
      ({ m with state := .ground }, [.osc_dispatch (m.osc_params ++ [m.osc_cur]) false])
    else
      let (m', acts) := m.toEscape.stepEscape b
      (m', .osc_dispatch (m.osc_params ++ [m.osc_cur]) false :: acts)
  | .stringIgnore =>
    if b = 0x07 then ({ m with state := .ground }, [])
    else if b = 0x1B then ({ m with state := .stringIgnoreEsc }, [])
    else (m, [])
  | .stringIgnoreEsc =>
    if b = 0x5C then ({ m with state := .ground }, [])
    else m.toEscape.stepEscape b
  | .utf8Collect need acc =>
    if 0x80 ≤ b ∧ b ≤ 0xBF then
      let acc := acc * 64 + (b % 64)
      if need ≤ 1 then ({ m with state := .ground }, [.print (charOfCodepoint acc)])
      else ({ m with state := .utf8Collect (need - 1) acc }, [])
    else
      let (m', acts) := { m with state := .ground }.stepGround b
      (m', .print '�' :: acts)

end VteMachine

/-- Strict UTF-8 decoding of a byte list (`std::str::from_utf8` in the
performer): `none` on any invalid, overlong or surrogate sequence. -/
def utf8Decode? : List Nat → Option (List Char)
  | [] => some []
  | b :: rest =>
    if b ≤ 0x7F then (utf8Decode? rest).map (fun cs => Char.ofNat b :: cs)
    else if 0xC2 ≤ b ∧ b ≤ 0xDF then
      match rest with
      | b1 :: rest' =>
        if 0x80 ≤ b1 ∧ b1 ≤ 0xBF then
          (utf8Decode? rest').map (fun cs => Char.ofNat ((b % 32) * 64 + b1 % 64) :: cs)
        else none
      | [] => none
    else if 0xE0 ≤ b ∧ b ≤ 0xEF then
      match rest with
      | b1 :: b2 :: rest' =>
        if 0x80 ≤ b1 ∧ b1 ≤ 0xBF ∧ 0x80 ≤ b2 ∧ b2 ≤ 0xBF then
          let n := (b % 16) * 4096 + (b1 % 64) * 64 + b2 % 64
          if 0x800 ≤ n ∧ ¬(0xD800 ≤ n ∧ n ≤ 0xDFFF) then
            (utf8Decode? rest').map (fun cs => charOfCodepoint n :: cs)
          else none
        else none
      | _ => none
    else if 0xF0 ≤ b ∧ b ≤ 0xF4 then
      match rest with
      | b1 :: b2 :: b3 :: rest' =>
        if 0x80 ≤ b1 ∧ b1 ≤ 0xBF ∧ 0x80 ≤ b2 ∧ b2 ≤ 0xBF ∧ 0x80 ≤ b3 ∧ b3 ≤ 0xBF then
          let n := (b % 8) * 262144 + (b1 % 64) * 4096 + (b2 % 64) * 64 + b3 % 64
          if 0x10000 ≤ n ∧ n ≤ 0x10FFFF then
            (utf8Decode? rest').map (fun cs => charOfCodepoint n :: cs)
          else none
        else none
      | _ => none
    else none

/-- Strict UTF-8 decoding to a `String`. -/
def utf8String? (bytes : List Nat) : Option String :=
  (utf8Decode? bytes).map (fun cs => ⟨cs⟩)

/-- `s.parse::<u32>()` on a decimal byte string: the OSC-number parse of the
performer.  `none` unless the bytes are one or more ASCII digits. -/
def parseOscNumber? (bytes : List Nat) : Option Nat :=
  if bytes ≠ [] ∧ bytes.all (fun b => 0x30 ≤ b ∧ b ≤ 0x39) then
    some (bytes.foldl (fun acc b => acc * 10 + (b - 0x30)) 0)
  else none

/-- The event accumulator of the parser (`TerminalPerformer` in
phosphor-parser). -/
structure TerminalPerformer where
  events : List ParsedEvent
  current_text : String
deriving DecidableEq, Repr

namespace TerminalPerformer

/-- `TerminalPerformer::new`. -/
def new : TerminalPerformer := ⟨[], ""⟩

/-- `TerminalPerformer::flush_text`: emit the accumulated printable run as one
`Text` event. -/
def flush_text (p : TerminalPerformer) : TerminalPerformer :=
  if p.current_text = "" then p
  else ⟨p.events ++ [.text p.current_text], ""⟩

/-- The single-parameter arms of `parse_sgr_params` (codes handled one at a
time in the Rust `while` loop). -/
def sgr_single (param : Nat) : List SgrParameter :=
  match param with
  | 0 => [.reset]
  | 1 => [.bold]
  | 2 => [.dim]
  | 3 => [.italic]
  | 4 => [.underline]
  | 5 => [.blink]
  | 7 => [.reverseVideo]
  | 8 => [.hidden]
  | 9 => [.strikethrough]
  | 21 => [.noBold]
  | 22 => [.noDim]
  | 23 => [.noItalic]
  | 24 => [.noUnderline]
  | 25 => [.noBlink]
  | 27 => [.noReverse]
  | 28 => [.noHidden]
  | 29 => [.noStrikethrough]
  | 39 => [.defaultForeground]
  | 49 => [.defaultBackground]
  | _ =>
    if 30 ≤ param ∧ param ≤ 37 then [.foreground (Color.from_ansi (param - 30))]
    else if 40 ≤ param ∧ param ≤ 47 then [.background (Color.from_ansi (param - 40))]
    else if 90 ≤ param ∧ param ≤ 97 then [.foreground (Color.from_ansi (param - 90 + 8))]
    else if 100 ≤ param ∧ param ≤ 107 then [.background (Color.from_ansi (param - 100 + 8))]
    else []

/-- `TerminalPerformer::parse_sgr_params`: the index-walking loop as list
recursion.  `38;5;n` / `48;5;n` consume three parameters (`as u8` truncates),
`38;2;r;g;b` / `48;2;r;g;b` consume five (components clamped to 0..=255); a
`38`/`48` without enough following parameters falls through to the next
parameter, exactly as the Rust `_ => {}` arm with `i += 1` does. -/
def parse_sgr_params : List Nat → List SgrParameter
  | [] => []
  | 38 :: 5 :: n :: rest => .foreground (.indexed (n % 256)) :: parse_sgr_params rest
  | 38 :: 2 :: r :: g :: b :: rest =>
    .foreground (.rgb (min r 255) (min g 255) (min b 255)) :: parse_sgr_params rest
  | 48 :: 5 :: n :: rest => .background (.indexed (n % 256)) :: parse_sgr_params rest
  | 48 :: 2 :: r :: g :: b :: rest =>
    .background (.rgb (min r 255) (min g 255) (min b 255)) :: parse_sgr_params rest
  | p :: rest => sgr_single p ++ parse_sgr_params rest

/-- `TerminalPerformer::get_param`: parameter at `index`, zero and missing
both replaced by `default`. -/
def get_param (params : List Nat) (index : Nat) (default : Nat) : Nat :=
  match params[index]? with
  | some v => if 0 < v then v else default
  | none => default

/-- `Perform::execute` for the performer: flush text, then translate the C0
byte. -/
def execute (p : TerminalPerformer) (byte : Nat) : TerminalPerformer :=
  let p := p.flush_text
  match byte with
  | 0x07 => { p with events := p.events ++ [.control .bell] }
  | 0x08 => { p with events := p.events ++ [.control .backspace] }
  | 0x09 => { p with events := p.events ++ [.control .tab] }
  | 0x0A => { p with events := p.events ++ [.control .newLine] }
  | 0x0B => { p with events := p.events ++ [.control .verticalTab] }
  | 0x0C => { p with events := p.events ++ [.control .formFeed] }
  | 0x0D => { p with events := p.events ++ [.control .carriageReturn] }
  | _ => p

/-- `Perform::csi_dispatch` for the performer. -/
def csi_dispatch (p : TerminalPerformer) (params : List Nat) (intermediates : List Nat)
    (action : Char) : TerminalPerformer :=
  let p := p.flush_text
  match action with
  | 'A' => { p with events := p.events ++ [.csi (.cursorUp (get_param params 0 1))] }
  | 'B' => { p with events := p.events ++ [.csi (.cursorDown (get_param params 0 1))] }
  | 'C' => { p with events := p.events ++ [.csi (.cursorForward (get_param params 0 1))] }
  | 'D' => { p with events := p.events ++ [.csi (.cursorBack (get_param params 0 1))] }
  | 'E' => { p with events := p.events ++ [.csi (.cursorNextLine (get_param params 0 1))] }
  | 'F' => { p with events := p.events ++ [.csi (.cursorPreviousLine (get_param params 0 1))] }
  | 'G' => { p with events := p.events ++ [.csi (.cursorColumn (get_param params 0 1))] }
  | 'H' => { p with events := p.events ++
      [.csi (.cursorPosition (get_param params 0 1) (get_param params 1 1))] }
  | 'f' => { p with events := p.events ++
      [.csi (.cursorPosition (get_param params 0 1) (get_param params 1 1))] }
  | 'J' =>
    let mode : EraseMode :=
      match params.headD 0 with
      | 0 => .below
      | 1 => .above
      | 2 => .all
      | 3 => .saved
      | _ => .below
    { p with events := p.events ++ [.csi (.eraseDisplay mode)] }
  | 'K' =>
    let mode : EraseMode :=
      match params.headD 0 with
      | 0 => .below
      | 1 => .above
      | 2 => .all
      | _ => .below
    { p with events := p.events ++ [.csi (.eraseLine mode)] }
  | 'S' => { p with events := p.events ++ [.csi (.scrollUp (get_param params 0 1))] }
  | 'T' => { p with events := p.events ++ [.csi (.scrollDown (get_param params 0 1))] }
  | 'm' => { p with events := p.events ++ [.csi (.setGraphicsRendition (parse_sgr_params params))] }
  | 'h' =>
    if intermediates = [0x3F] then
      { p with events := p.events ++
          params.filterMap (fun v => if v = 25 then some (.csi .showCursor) else none) }
    else p
  | 'l' =>
    if intermediates = [0x3F] then
      { p with events := p.events ++
          params.filterMap (fun v => if v = 25 then some (.csi .hideCursor) else none) }
    else p
  | 's' => { p with events := p.events ++ [.csi .saveCursor] }
  | 'u' => { p with events := p.events ++ [.csi .restoreCursor] }
  | _ => p

/-- `Perform::esc_dispatch` for the performer. -/
def esc_dispatch (p : TerminalPerformer) (_intermediates : List Nat) (byte : Nat) :
    TerminalPerformer :=
  let p := p.flush_text
  match byte with
  | 0x44 => { p with events := p.events ++ [.esc .index] }
  | 0x45 => { p with events := p.events ++ [.esc .nextLine] }
  | 0x48 => { p with events := p.events ++ [.esc .tabSet] }
  | 0x4D => { p with events := p.events ++ [.esc .reverseIndex] }
  | 0x63 => { p with events := p.events ++ [.esc .reset] }
  | 0x37 => { p with events := p.events ++ [.esc .saveCursor] }
  | 0x38 => { p with events := p.events ++ [.esc .restoreCursor] }
  | 0x3D => { p with events := p.events ++ [.esc .keypadApplicationMode] }
  | 0x3E => { p with events := p.events ++ [.esc .keypadNumericMode] }
  | _ => p

/-- `Perform::osc_dispatch` for the performer (codes 0/2 title, 8 hyperlink). -/
def osc_dispatch (p : TerminalPerformer) (params : List (List Nat))
    (_bell_terminated : Bool) : TerminalPerformer :=
  let p := p.flush_text
  match params with
  | [] => p
  | p0 :: restParams =>
    match parseOscNumber? p0 with
    | some 0 | some 2 =>
      match restParams with
      | p1 :: _ =>
        match utf8String? p1 with
        | some title => { p with events := p.events ++ [.osc (.setTitle title)] }
        | none => p
      | [] => p
    | some 8 =>
      match restParams with
      | p1 :: p2 :: _ =>
        match utf8String? p2 with
        | some uri =>
          let id : Option String :=
            if p1 = [] then none
            else
              match utf8String? p1 with
              | some param_str =>
                ((param_str.splitOn ";").find? (fun q => q.startsWith "id=")).map
                  (fun q => q.drop 3)
              | none => none
          if uri = "" then { p with events := p.events ++ [.osc .resetHyperlink] }
          else { p with events := p.events ++ [.osc (.setHyperlink id uri)] }
        | none => p
      | _ => p
    | _ => p

/-- Dispatch one automaton callback to the performer. -/
def applyAction (p : TerminalPerformer) : VteAction → TerminalPerformer
  | .print c => { p with current_text := p.current_text.push c }
  | .execute b => p.execute b
  | .csi_dispatch ps is a => p.csi_dispatch ps is a
  | .esc_dispatch is b => p.esc_dispatch is b
  | .osc_dispatch ps bell => p.osc_dispatch ps bell

end TerminalPerformer

/-- The resumable byte-stream processor (`VteParser` in phosphor-parser): the
automaton plus the performer. -/
structure VteParser where
  machine : VteMachine
  performer : TerminalPerformer
deriving DecidableEq, Repr

namespace VteParser

/-- `VteParser::new`. -/
def new : VteParser := ⟨VteMachine.new, TerminalPerformer.new⟩

/-- The loop body of `VteParser::parse`: advance the automaton one byte and
run the resulting callbacks on the performer. -/
def parseStep (acc : VteMachine × TerminalPerformer) (b : Nat) :
    VteMachine × TerminalPerformer :=
  let (m, acts) := acc.1.advance b
  (m, acts.foldl TerminalPerformer.applyAction acc.2)

/-- `VteParser::parse`: clear previous events, advance each byte through the
automaton, flush pending text, take the accumulated events. -/
def parse (vp : VteParser) (data : List Nat) : VteParser × List ParsedEvent :=
  let (m, perf) := data.foldl parseStep (vp.machine, { vp.performer with events := [] })
  let perf := perf.flush_text
  (⟨m, { perf with events := [] }⟩, perf.events)

/-- The loop body of the byte-by-byte driver: one single-byte `parse` call,
events appended. -/
def parseEachStep (acc : VteParser × List ParsedEvent) (b : Nat) :
    VteParser × List ParsedEvent :=
  let (vp', evs) := acc.1.parse [b]
  (vp', acc.2 ++ evs)

/-- Feed the same bytes one per `parse` call, concatenating the event lists. -/
def parseEach (vp : VteParser) (data : List Nat) : VteParser × List ParsedEvent :=
  data.foldl parseEachStep (vp, [])

end VteParser

/-- Apply a list of parsed events to the state in order (the
`for event in events { AnsiProcessor::process_event(..) }` loops). -/
def AnsiProcessor.apply_events (s : TerminalState) (events : List ParsedEvent) : TerminalState :=
  events.foldl AnsiProcessor.process_event s

/-- Events broadcast by the coordinator (`Event` in events/types.rs). -/
inductive Event where
  | outputReady (bytes : List Nat)
  | stateChanged
  | resized (size : Size)
  | closed
  | errorEvent (msg : String)
deriving DecidableEq, Repr

/-- The coordinator (`Terminal` in phosphor-core/src/lib.rs), restricted to
the parser/state pair it owns; the PTY and channels are the I/O boundary. -/
structure Terminal where
  state : TerminalState
  vte : VteParser
  size : Size
deriving Repr

namespace Terminal

/-- A fresh coordinator over a fresh parser and state (`Terminal::new` minus
the PTY spawn). -/
def new (size : Size) : Terminal := ⟨TerminalState.new size, VteParser.new, size⟩

/-- `Terminal::process_output`: parse the chunk, apply every event to the
state, then publish `StateChanged`.  The returned list is what this call
sends on the event channel, in order. -/
def process_output (t : Terminal) (data : List Nat) : Terminal × List Event :=
  let (vp, events) := t.vte.parse data
  let state := AnsiProcessor.apply_events t.state events
  ({ t with state := state, vte := vp }, [.stateChanged])

/-- One `Ok(n)` arm of the coordinator read loop: `process_output(data)`
followed by sending `OutputReady(data)`.  The returned list is everything
this iteration publishes for the chunk, in publication order. -/
def read_iteration (t : Terminal) (data : List Nat) : Terminal × List Event :=
  let (t, evs) := t.process_output data
  (t, evs ++ [.outputReady data])

end Terminal

/-- The bytes of an ASCII string (the byte-string literals of the tests). -/
def asciiBytes (s : String) : List Nat := s.data.map Char.toNat

/-! ### Streaming-equivalence infrastructure

The parser flushes its pending printable run at the end of every `parse`
call, so chunking can only influence how a printable run is split across
`Text` events.  `coalesce` normalises an event list by merging adjacent
`Text` events (and dropping empty ones); the development below shows that
up to `coalesce`, the events are a function of the automaton's callback
stream alone, independent of chunking. -/

/-- The `Text` event of a pending run: nothing for the empty run. -/
def textEv (s : String) : List ParsedEvent :=
  if s = "" then [] else [.text s]

/-- Merge a leading text run into an already-coalesced list. -/
def coalesceCons (s : String) : List ParsedEvent → List ParsedEvent
  | .text u :: r => textEv (s ++ u) ++ r
  | r => textEv s ++ r

/-- Normalise an event list: adjacent `Text` events merged, empty ones
dropped. -/
def coalesce : List ParsedEvent → List ParsedEvent
  | [] => []
  | .text s :: rest => coalesceCons s (coalesce rest)
  | .control c :: rest => .control c :: coalesce rest
  | .csi c :: rest => .csi c :: coalesce rest
  | .osc o :: rest => .osc o :: coalesce rest
  | .esc e :: rest => .esc e :: coalesce rest

/-- True unless the list starts with a `Text` event. -/
def headNotText : List ParsedEvent → Bool
  | .text _ :: _ => false
  | _ => true

/-- A normal form: no empty `Text`, no two adjacent `Text` events. -/
def coalesced : List ParsedEvent → Bool
  | [] => true
  | .text s :: rest => if s = "" then false else headNotText rest && coalesced rest
  | _ :: rest => coalesced rest

/-- The events a non-print callback appends after the flush (obtained by
running it on a fresh performer). -/
def actionEvents (a : VteAction) : List ParsedEvent :=
  (TerminalPerformer.new.applyAction a).events

/-- One callback's contribution in canonical form: a print is its own
one-character `Text` event, any other callback its appended events. -/
def actionCanon : VteAction → List ParsedEvent
  | .print c => [.text ("".push c)]
  | a => actionEvents a

/-- The canonical event stream of a callback list. -/
def canonEvents (as : List VteAction) : List ParsedEvent :=
  as.flatMap actionCanon

/-- The events one `parse` call emits for a callback list, starting from
pending text `t`: prints extend the run, any other callback flushes it, and
the final flush closes the last run. -/
def render (t : String) : List VteAction → List ParsedEvent
  | [] => textEv t
  | .print c :: rest => render (t.push c) rest
  | a :: rest => textEv t ++ actionEvents a ++ render "" rest

/-- The automaton's callback stream over a byte list. -/
def machineRun (m : VteMachine) : List Nat → VteMachine × List VteAction
  | [] => (m, [])
  | b :: rest =>
    let (m1, acts) := m.advance b
    let (m2, acts') := machineRun m1 rest
    (m2, acts ++ acts')

/-- The concatenated outputs of one single-byte `parse` call per byte. -/
def chunkEvents (m : VteMachine) : List Nat → List ParsedEvent
  | [] => []
  | b :: rest =>
    let (m1, acts) := m.advance b
    render "" acts ++ chunkEvents m1 rest

/-- `flush_text` in closed form. -/
theorem TerminalPerformer.flush_text_eq (p : TerminalPerformer) :
    p.flush_text = ⟨p.events ++ textEv p.current_text, ""⟩ := by
  obtain ⟨E, t⟩ := p
  by_cases h : t = "" <;> simp [TerminalPerformer.flush_text, textEv, h]

/-- `execute` appends its events after flushing, independently of the
performer it runs on. -/
theorem TerminalPerformer.execute_eq (p : TerminalPerformer) (b : Nat) :
    p.execute b
      = ⟨p.events ++ textEv p.current_text ++ (TerminalPerformer.new.execute b).events, ""⟩ := by
  unfold TerminalPerformer.execute
  rw [TerminalPerformer.flush_text_eq]
  have hnew : TerminalPerformer.new.flush_text = TerminalPerformer.new := rfl
  rw [hnew]
  split <;> simp [TerminalPerformer.new]

/-- `esc_dispatch` appends its events after flushing, independently of the
performer it runs on. -/
theorem TerminalPerformer.esc_dispatch_eq (p : TerminalPerformer) (i : List Nat) (b : Nat) :
    p.esc_dispatch i b
      = ⟨p.events ++ textEv p.current_text ++ (TerminalPerformer.new.esc_dispatch i b).events, ""⟩ := by
  unfold TerminalPerformer.esc_dispatch
  rw [TerminalPerformer.flush_text_eq]
  have hnew : TerminalPerformer.new.flush_text = TerminalPerformer.new := rfl
  rw [hnew]
  split <;> simp [TerminalPerformer.new]

/-- `csi_dispatch` appends its events after flushing, independently of the
performer it runs on. -/
theorem TerminalPerformer.csi_dispatch_eq (p : TerminalPerformer) (ps i : List Nat) (a : Char) :
    p.csi_dispatch ps i a
      = ⟨p.events ++ textEv p.current_text ++ (TerminalPerformer.new.csi_dispatch ps i a).events, ""⟩ := by
  unfold TerminalPerformer.csi_dispatch
  rw [TerminalPerformer.flush_text_eq]
  have hnew : TerminalPerformer.new.flush_text = TerminalPerformer.new := rfl
  rw [hnew]
  split <;> first
    | (simp [TerminalPerformer.new]; done)
    | (split <;> simp [TerminalPerformer.new])

/-- `osc_dispatch` appends its events after flushing, independently of the
performer it runs on. -/
theorem TerminalPerformer.osc_dispatch_eq (p : TerminalPerformer) (ps : List (List Nat))
    (bell : Bool) :
    p.osc_dispatch ps bell
      = ⟨p.events ++ textEv p.current_text ++ (TerminalPerformer.new.osc_dispatch ps bell).events, ""⟩ := by
  unfold TerminalPerformer.osc_dispatch
  rw [TerminalPerformer.flush_text_eq]
  have hnew : TerminalPerformer.new.flush_text = TerminalPerformer.new := rfl
  rw [hnew]
  split <;> (try split) <;> (try split) <;> (try split) <;> (try split) <;> (try split) <;>
    (try split) <;> simp [TerminalPerformer.new]

/-- `applyAction` on a print extends the pending run. -/
theorem TerminalPerformer.applyAction_print (p : TerminalPerformer) (c : Char) :
    p.applyAction (.print c) = { p with current_text := p.current_text.push c } := rfl

/-- `applyAction` on any non-print callback flushes, then appends the
callback's own events. -/
theorem TerminalPerformer.applyAction_nonprint (p : TerminalPerformer) (a : VteAction)
    (h : ∀ c, a ≠ .print c) :
    p.applyAction a = ⟨p.events ++ textEv p.current_text ++ actionEvents a, ""⟩ := by
  cases a with
  | print c => exact absurd rfl (h c)
  | execute b => exact p.execute_eq b
  | csi_dispatch ps i a => exact p.csi_dispatch_eq ps i a
  | esc_dispatch i b => exact p.esc_dispatch_eq i b
  | osc_dispatch ps bell => exact p.osc_dispatch_eq ps bell

/-- The flushed events of a callback fold are the render of the callback
list from the pending run. -/
theorem runActions_render (as : List VteAction) (p : TerminalPerformer) :
    ((as.foldl TerminalPerformer.applyAction p).flush_text).events
      = p.events ++ render p.current_text as := by
  induction as generalizing p with
  | nil => simp [render, TerminalPerformer.flush_text_eq]
  | cons a rest ih =>
    cases a with
    | print c =>
      simp only [List.foldl_cons, TerminalPerformer.applyAction_print]
      rw [ih]
      simp [render]
    | execute b =>
      simp only [List.foldl_cons, TerminalPerformer.applyAction]
      rw [TerminalPerformer.execute_eq, ih]
      simp [render, textEv, actionEvents, TerminalPerformer.applyAction]
    | csi_dispatch ps i a =>
      simp only [List.foldl_cons, TerminalPerformer.applyAction]
      rw [TerminalPerformer.csi_dispatch_eq, ih]
      simp [render, textEv, actionEvents, TerminalPerformer.applyAction]
    | esc_dispatch i b =>
      simp only [List.foldl_cons, TerminalPerformer.applyAction]
      rw [TerminalPerformer.esc_dispatch_eq, ih]
      simp [render, textEv, actionEvents, TerminalPerformer.applyAction]
    | osc_dispatch ps bell =>
      simp only [List.foldl_cons, TerminalPerformer.applyAction]
      rw [TerminalPerformer.osc_dispatch_eq, ih]
      simp [render, textEv, actionEvents, TerminalPerformer.applyAction]

/-- The parse loop splits into the automaton run and the performer fold. -/
theorem parse_foldl (data : List Nat) (m : VteMachine) (p : TerminalPerformer) :
    data.foldl VteParser.parseStep (m, p)
      = ((machineRun m data).1,
         (machineRun m data).2.foldl TerminalPerformer.applyAction p) := by
  induction data generalizing m p with
  | nil => simp [machineRun]
  | cons b rest ih =>
    rcases h : m.advance b with ⟨m1, acts⟩
    simp [machineRun, VteParser.parseStep, h, ih, List.foldl_append]

/-- `parse` in closed form: the machine advances, the performer resets, and
the emitted events are the render of the automaton's callbacks. -/
theorem parse_eq (vp : VteParser) (data : List Nat) :
    vp.parse data
      = (⟨(machineRun vp.machine data).1, ⟨[], ""⟩⟩,
         render vp.performer.current_text (machineRun vp.machine data).2) := by
  have hct : ∀ q : TerminalPerformer, q.flush_text.current_text = "" := by
    intro q; rw [TerminalPerformer.flush_text_eq]
  unfold VteParser.parse
  rw [parse_foldl]
  dsimp only
  rw [hct, runActions_render]
  simp

/-- The byte-by-byte fold accumulates exactly `chunkEvents`. -/
theorem parseEach_aux (data : List Nat) : ∀ (vp : VteParser) (acc : List ParsedEvent),
    vp.performer.current_text = "" →
    (data.foldl VteParser.parseEachStep (vp, acc)).2 = acc ++ chunkEvents vp.machine data
      ∧ (data.foldl VteParser.parseEachStep (vp, acc)).1.machine = (machineRun vp.machine data).1
      ∧ (data.foldl VteParser.parseEachStep (vp, acc)).1.performer.current_text = "" := by
  induction data with
  | nil =>
    intro vp acc h
    exact ⟨by simp [chunkEvents], rfl, h⟩
  | cons b rest ih =>
    intro vp acc h
    rcases hadv : vp.machine.advance b with ⟨m1, acts⟩
    have hstep : VteParser.parseEachStep (vp, acc) b
        = (⟨m1, ⟨[], ""⟩⟩, acc ++ render "" acts) := by
      simp [VteParser.parseEachStep, parse_eq, machineRun, hadv, h]
    simp only [List.foldl_cons, hstep]
    have hres := ih ⟨m1, ⟨[], ""⟩⟩ (acc ++ render "" acts) rfl
    refine ⟨?_, ?_, hres.2.2⟩
    · rw [hres.1]
      simp [chunkEvents, hadv]
    · rw [hres.2.1]
      simp [machineRun, hadv]

/-- `parseEach` emits exactly the per-byte renders, concatenated. -/
theorem parseEach_events (data : List Nat) (vp : VteParser)
    (h : vp.performer.current_text = "") :
    (vp.parseEach data).2 = chunkEvents vp.machine data := by
  have hres := (parseEach_aux data vp [] h).1
  simpa [VteParser.parseEach] using hres

/-- A left factor with nonempty data keeps a string append nonempty. -/
theorem str_append_ne_left (s t : String) (h : s ≠ "") : s ++ t ≠ "" := by
  intro he
  apply h
  apply String.ext
  have hd := congrArg String.data he
  rw [String.data_append] at hd
  exact (List.append_eq_nil.mp hd).1

/-- A right factor with nonempty data keeps a string append nonempty. -/
theorem str_append_ne_right (s t : String) (h : t ≠ "") : s ++ t ≠ "" := by
  intro he
  apply h
  apply String.ext
  have hd := congrArg String.data he
  rw [String.data_append] at hd
  exact (List.append_eq_nil.mp hd).2

/-- `coalesce` outputs are in normal form. -/
theorem coalesced_coalesce (xs : List ParsedEvent) : coalesced (coalesce xs) = true := by
  induction xs with
  | nil => rfl
  | cons e rest ih =>
    cases e with
    | text s =>
      rw [coalesce]
      rcases hc : coalesce rest with _ | ⟨f, r⟩
      · by_cases hs : s = "" <;> simp [coalesceCons, textEv, hs, coalesced, headNotText]
      · rw [hc] at ih
        cases f with
        | text u =>
          simp only [coalesceCons]
          simp only [coalesced, headNotText] at ih
          rcases ihu : decide (u = "") with _ | _
          · have hu : u ≠ "" := by simpa using ihu
            have hsu : s ++ u ≠ "" := str_append_ne_right s u hu
            simp [textEv, hsu, coalesced]
            simp [hu] at ih
            exact ih
          · have hu : u = "" := by simpa using ihu
            simp [hu] at ih
        | control c =>
          by_cases hs : s = "" <;>
            simp_all [coalesceCons, textEv, coalesced, headNotText]
        | csi c =>
          by_cases hs : s = "" <;>
            simp_all [coalesceCons, textEv, coalesced, headNotText]
        | osc o =>
          by_cases hs : s = "" <;>
            simp_all [coalesceCons, textEv, coalesced, headNotText]
        | esc e2 =>
          by_cases hs : s = "" <;>
            simp_all [coalesceCons, textEv, coalesced, headNotText]
    | control c => simpa [coalesce, coalesced] using ih
    | csi c => simpa [coalesce, coalesced] using ih
    | osc o => simpa [coalesce, coalesced] using ih
    | esc e2 => simpa [coalesce, coalesced] using ih

/-- `coalesce` is the identity on normal forms. -/
theorem coalesce_of_coalesced (xs : List ParsedEvent) (h : coalesced xs = true) :
    coalesce xs = xs := by
  induction xs with
  | nil => rfl
  | cons e rest ih =>
    cases e with
    | text s =>
      simp only [coalesced] at h
      rcases hs : decide (s = "") with _ | _
      · have hs' : ¬ s = "" := by simpa using hs
        simp [hs'] at h
        rw [coalesce, ih h.2, coalesceCons.eq_def]
        rcases rest with _ | ⟨f, r⟩
        · simp [textEv, hs']
        · cases f with
          | text u => simp [headNotText] at h
          | control c => simp [textEv, hs']
          | csi c => simp [textEv, hs']
          | osc o => simp [textEv, hs']
          | esc e2 => simp [textEv, hs']
      · have hs' : s = "" := by simpa using hs
        simp [hs'] at h
    | control c =>
      simp only [coalesced] at h
      rw [coalesce, ih h]
    | csi c =>
      simp only [coalesced] at h
      rw [coalesce, ih h]
    | osc o =>
      simp only [coalesced] at h
      rw [coalesce, ih h]
    | esc e2 =>
      simp only [coalesced] at h
      rw [coalesce, ih h]

/-- `coalesce` is idempotent. -/
theorem coalesce_idem (xs : List ParsedEvent) : coalesce (coalesce xs) = coalesce xs :=
  coalesce_of_coalesced _ (coalesced_coalesce xs)

/-- A suffix may be coalesced first without changing the result. -/
theorem coalesce_append_right (xs ys : List ParsedEvent) :
    coalesce (xs ++ ys) = coalesce (xs ++ coalesce ys) := by
  induction xs with
  | nil => simpa using (coalesce_idem ys).symm
  | cons e rest ih =>
    cases e with
    | text s =>
      simp only [List.cons_append, coalesce]
      exact congrArg (coalesceCons s) ih
    | control c =>
      simp only [List.cons_append, coalesce]
      exact congrArg (ParsedEvent.control c :: ·) ih
    | csi c =>
      simp only [List.cons_append, coalesce]
      exact congrArg (ParsedEvent.csi c :: ·) ih
    | osc o =>
      simp only [List.cons_append, coalesce]
      exact congrArg (ParsedEvent.osc o :: ·) ih
    | esc e2 =>
      simp only [List.cons_append, coalesce]
      exact congrArg (ParsedEvent.esc e2 :: ·) ih

/-- Under `coalesce`, a leading text run may be split anywhere. -/
theorem coalesce_textEv_append (s t : String) (Z : List ParsedEvent) :
    coalesce (textEv (s ++ t) ++ Z) = coalesce (textEv s ++ (textEv t ++ Z)) := by
  by_cases hs : s = ""
  · simp [hs, textEv, String.empty_append]
  · by_cases ht : t = ""
    · simp [ht, textEv, String.append_empty]
    · have hst : s ++ t ≠ "" := str_append_ne_right s t ht
      simp only [textEv, hs, ht, hst, if_neg]
      simp only [List.cons_append, List.nil_append, coalesce]
      change coalesceCons (s ++ t) (coalesce Z) = coalesceCons s (coalesceCons t (coalesce Z))
      rcases hc : coalesce Z with _ | ⟨f, r⟩
      · simp [coalesceCons, textEv, ht, hst, str_append_ne_right]
      · cases f with
        | text u =>
          have htu : t ++ u ≠ "" := str_append_ne_left t u ht
          have hstu : (s ++ t) ++ u ≠ "" := str_append_ne_left _ u hst
          simp [coalesceCons, textEv, htu, hstu, String.append_assoc,
            str_append_ne_right s _ htu]
        | control c => simp [coalesceCons, textEv, ht, hst]
        | csi c => simp [coalesceCons, textEv, ht, hst]
        | osc o => simp [coalesceCons, textEv, ht, hst]
        | esc e2 => simp [coalesceCons, textEv, ht, hst]

/-- Rendering a callback list equals its canonical event stream up to
`coalesce`, uniformly in the pending run and in any continuation. -/
theorem coalesce_render (as : List VteAction) : ∀ (t : String) (tail : List ParsedEvent),
    coalesce (render t as ++ tail) = coalesce (textEv t ++ (canonEvents as ++ tail)) := by
  induction as with
  | nil => intro t tail; simp [render, canonEvents]
  | cons a rest ih =>
    intro t tail
    cases a with
    | print c =>
      simp only [render]
      rw [ih (t.push c) tail]
      have hpush : t.push c = t ++ ("".push c) := by
        apply String.ext
        simp [String.data_push, String.data_append]
      rw [hpush, coalesce_textEv_append]
      have hne : ("".push c) ≠ "" := by
        intro h
        have hdata := congrArg String.data h
        simp [String.data_push] at hdata
      simp [canonEvents, actionCanon, textEv, hne]
    | execute b =>
      simp only [render, List.append_assoc]
      rw [← List.append_assoc (textEv t) (actionEvents (VteAction.execute b))
          (render "" rest ++ tail)]
      rw [coalesce_append_right]
      rw [ih "" tail]
      have h0 : textEv "" = [] := rfl
      rw [h0, List.nil_append]
      rw [← coalesce_append_right]
      simp [canonEvents, actionCanon, List.append_assoc]
    | csi_dispatch ps i a =>
      simp only [render, List.append_assoc]
      rw [← List.append_assoc (textEv t) (actionEvents (VteAction.csi_dispatch ps i a))
          (render "" rest ++ tail)]
      rw [coalesce_append_right]
      rw [ih "" tail]
      have h0 : textEv "" = [] := rfl
      rw [h0, List.nil_append]
      rw [← coalesce_append_right]
      simp [canonEvents, actionCanon, List.append_assoc]
    | esc_dispatch i b =>
      simp only [render, List.append_assoc]
      rw [← List.append_assoc (textEv t) (actionEvents (VteAction.esc_dispatch i b))
          (render "" rest ++ tail)]
      rw [coalesce_append_right]
      rw [ih "" tail]
      have h0 : textEv "" = [] := rfl
      rw [h0, List.nil_append]
      rw [← coalesce_append_right]
      simp [canonEvents, actionCanon, List.append_assoc]
    | osc_dispatch ps bell =>
      simp only [render, List.append_assoc]
      rw [← List.append_assoc (textEv t) (actionEvents (VteAction.osc_dispatch ps bell))
          (render "" rest ++ tail)]
      rw [coalesce_append_right]
      rw [ih "" tail]
      have h0 : textEv "" = [] := rfl
      rw [h0, List.nil_append]
      rw [← coalesce_append_right]
      simp [canonEvents, actionCanon, List.append_assoc]

/-- Per-byte rendering equals the canonical event stream of the whole run, up
to `coalesce`. -/
theorem coalesce_chunkEvents (data : List Nat) : ∀ m : VteMachine,
    coalesce (chunkEvents m data) = coalesce (canonEvents (machineRun m data).2) := by
  induction data with
  | nil => intro m; simp [chunkEvents, machineRun, canonEvents]
  | cons b rest ih =>
    intro m
    rcases hadv : m.advance b with ⟨m1, acts⟩
    simp only [chunkEvents, machineRun, hadv]
    rw [coalesce_append_right, ih m1, ← coalesce_append_right]
    have hcanon : canonEvents (acts ++ (machineRun m1 rest).2)
        = canonEvents acts ++ canonEvents (machineRun m1 rest).2 := by
      simp [canonEvents]
    rw [hcanon]
    have hr := coalesce_render acts "" (canonEvents (machineRun m1 rest).2)
    have h0 : textEv "" = [] := rfl
    rw [h0, List.nil_append] at hr
    exact hr

/-! ### Claim theorems -/

set_option maxRecDepth 100000

/-- C1: the end-to-end alternate-screen round trip fails.  Feeding
`"\x1b[?1049h" ++ "X" ++ "\x1b[?1049l"` through the parser and applying every
event leaves `'X'` on the (primary) screen and never activates the alternate
buffer, because the DECSET/DECRST branch of `csi_dispatch` handles only
private mode 25 and drops 1049 entirely: the parse of `"\x1b[?1049h"` emits no
event at all, so the state just before the first escape (blank at `(0,0)`) is
not restored. -/
theorem c1_alt_screen_roundtrip_fails :
    (let s0 := TerminalState.new ⟨2, 2⟩
     let s := AnsiProcessor.apply_events s0
        (VteParser.new.parse (asciiBytes "\x1b[?1049hX\x1b[?1049l")).2
     (VteParser.new.parse (asciiBytes "\x1b[?1049h")).2 = []
       ∧ (s.screen_buffer.get_cell ⟨0, 0⟩).ch = 'X'
       ∧ (s0.screen_buffer.get_cell ⟨0, 0⟩).ch = ' '
       ∧ s.alternate_buffer = none
       ∧ s.screen_buffer ≠ s0.screen_buffer) := by
  decide

/-- C2 counterexample: streaming equivalence fails as stated — parsing
`"AB"` one byte per call yields `[Text "A", Text "B"]`, while one chunk yields
`[Text "AB"]`, because every `parse` call flushes the pending printable run. -/
theorem c2_streaming_counterexample :
    (VteParser.new.parseEach (asciiBytes "AB")).2 ≠ (VteParser.new.parse (asciiBytes "AB")).2 := by
  decide

/-- C2 amended: streaming equivalence holds up to `Text`-event coalescing —
for every byte sequence, feeding a fresh parser one byte per `parse` call and
concatenating the event lists yields the same event sequence as a single
`parse` of the whole sequence after merging adjacent `Text` events (the
end-of-call flush only moves `Text` boundaries; all non-text events and the
concatenated printable runs between them agree exactly). -/
theorem c2_streaming_equiv_up_to_coalescing (data : List Nat) :
    coalesce (VteParser.new.parseEach data).2 = coalesce (VteParser.new.parse data).2 := by
  rw [parseEach_events data VteParser.new rfl]
  rw [parse_eq]
  rw [coalesce_chunkEvents data VteParser.new.machine]
  have hr := coalesce_render (machineRun VteParser.new.machine data).2 "" []
  have h0 : textEv "" = [] := rfl
  rw [h0, List.nil_append, List.append_nil, List.append_nil] at hr
  exact hr.symm

/-- C3: SGR code 22 does not clear Bold.  The parser maps 22 to `NoDim`
(21 is the code mapped to `NoBold`), and `apply_sgr NoDim` clears only the Dim
flag: starting from attributes with Bold and Dim set, applying the parsed SGR
sequence `[22]` leaves Bold set. -/
theorem c3_sgr22_leaves_bold_set :
    (TerminalPerformer.parse_sgr_params [22] = [SgrParameter.noDim]
      ∧ (let s := AnsiProcessor.process_csi (TerminalState.new ⟨2, 2⟩)
            (.setGraphicsRendition (TerminalPerformer.parse_sgr_params [1, 2]))
         let s' := AnsiProcessor.process_csi s
            (.setGraphicsRendition (TerminalPerformer.parse_sgr_params [22]))
         s.active_attributes.flags.bold = true ∧ s.active_attributes.flags.dim = true
           ∧ s'.active_attributes.flags.bold = true
           ∧ s'.active_attributes.flags.dim = false)) := by
  decide

/-- C4 counterexample: Backspace does not leave the screen unchanged.  On a
2×2 screen holding `"AB"` with the cursor placed on the `'B'` at `(0,1)`,
processing Backspace moves the cursor to `(0,0)` (the claimed saturating
decrement) but also overwrites the cell `(0,1)` with a blank: the cell
contents change, refuting the claim. -/
theorem c4_backspace_clears_a_cell :
    (let s := AnsiProcessor.process_csi ((TerminalState.new ⟨2, 2⟩).write_str "AB")
        (.cursorPosition 1 2)
     let s' := s.write_char '\x08'
     (s.screen_buffer.get_cell ⟨0, 1⟩).ch = 'B' ∧ s.cursor.position = ⟨0, 1⟩
       ∧ s'.cursor.position = ⟨0, 0⟩
       ∧ (s'.screen_buffer.get_cell ⟨0, 1⟩).ch = ' ') := by
  decide

/-- C5 counterexample: after an out-of-range CUP, the next printable write
does scroll and push scrollback, and does not land at the clamped position.
On a 2×2 screen, `CUP(5,5)` stores the unclamped cursor `(4,4)` (the external
read clamps to `(1,1)`); writing `'A'` then scrolls twice, pushing two lines
into scrollback, and leaves no `'A'` at the clamped cell `(1,1)`. -/
theorem c5_cup_overshoot_scrolls :
    (let s := AnsiProcessor.process_csi (TerminalState.new ⟨2, 2⟩) (.cursorPosition 5 5)
     let s' := s.write_char 'A'
     s.cursor.position = ⟨4, 4⟩ ∧ s.cursor_position = ⟨1, 1⟩
       ∧ s'.scrollback_buffer.len = 2
       ∧ (s'.screen_buffer.get_cell ⟨1, 1⟩).ch ≠ 'A') := by
  decide

/-- C6 counterexample: in one read-loop iteration the coordinator publishes
`StateChanged` (inside `process_output`) and only then `OutputReady` with the
chunk's bytes, so the `OutputReady` carrying the bytes follows the
`StateChanged` arising from them — the opposite of the claimed order. -/
theorem c6_output_ready_follows_state_changed :
    (let evs := (Terminal.read_iteration (Terminal.new ⟨2, 2⟩) (asciiBytes "A")).2
     evs = [Event.stateChanged, Event.outputReady (asciiBytes "A")]
       ∧ evs[0]? = some Event.stateChanged
       ∧ evs[1]? = some (Event.outputReady (asciiBytes "A"))) := by
  decide

/-- C7: the deferred-scroll newline scenario.  Applying the parsed events of
`"Line 0\nLine 1\nLine 2\nLine 3\n"` to a fresh 3-row (80-column) state gives
externally observed cursor row 2, scrollback length 1, and scrollback line 0
starting with the cells `L i n e ␠ 0`; the internal cursor sits on the virtual
row 3, confirming that the final line feed alone did not scroll. -/
theorem c7_deferred_scroll_scenario :
    (let s := AnsiProcessor.apply_events (TerminalState.new ⟨3, 80⟩)
        (VteParser.new.parse (asciiBytes "Line 0\nLine 1\nLine 2\nLine 3\n")).2
     s.cursor_position.row = 2 ∧ s.scrollback_buffer.len = 1
       ∧ (((s.scrollback_buffer.get_line 0).getD []).take 6).map Cell.ch = "Line 0".data
       ∧ s.cursor.position.row = 3) := by
  decide

/-- C8 counterexample: with capacity `max_lines = 0`, one push stores one
line, so the number of stored lines exceeds `max_lines` — `push` pops the
front only before appending, and the append always happens. -/
theorem c8_zero_capacity_overflows :
    ((ScrollbackBuffer.new 0).push []).len = 1
      ∧ ¬ ((ScrollbackBuffer.new 0).push []).len ≤ (ScrollbackBuffer.new 0).max_lines := by
  decide

/-- C9: `write_char` is not total — Tab's fallback computes the plain `u16`
subtraction `size.cols - 1` eagerly (inside `unwrap_or`), which underflows
when `cols = 0`: under debug-build semantics (`write_char?`) the call panics
on a 1-row, 0-column state. -/
theorem c9_tab_fallback_underflows :
    (TerminalState.new ⟨1, 0⟩).write_char? '\t' = none
      ∧ (TerminalState.new ⟨1, 0⟩).tab_fallback? = none := by
  decide

/-- C5 amended: CUP with 1-based `(row, col)` stores the 0-based position
unclamped in the cursor, and only the externally read `cursor_position` is the
clamped `(min (row-1) (rows-1), min (col-1) (cols-1))`; the out-of-range
follow-up behaviour (scroll, scrollback push, dropped write) is exhibited by
the counterexample. -/
theorem c5_cup_clamps_only_external_reads (s : TerminalState) (row col : Nat) :
    (AnsiProcessor.process_csi s (.cursorPosition row col)).cursor.position
        = ⟨row - 1, col - 1⟩
      ∧ (AnsiProcessor.process_csi s (.cursorPosition row col)).cursor_position
        = ⟨min (row - 1) (s.size.rows - 1), min (col - 1) (s.size.cols - 1)⟩ := by
  constructor <;>
    simp [AnsiProcessor.process_csi, TerminalState.set_cursor_position,
      Cursor.set_position, TerminalState.cursor_position]

/-- C6 amended: in every read-loop iteration, for every chunk of bytes, the
coordinator publishes exactly `StateChanged` followed by `OutputReady` with
those bytes — the `OutputReady` always follows the `StateChanged` arising
from the chunk. -/
theorem c6_iteration_event_order (t : Terminal) (data : List Nat) :
    (t.read_iteration data).2 = [Event.stateChanged, Event.outputReady data] := by
  simp [Terminal.read_iteration, Terminal.process_output]

/-- C10: `restore_cursor` with an empty slot is the identity, and a
successful restore empties the single slot: after `save_cursor` then
`restore_cursor`, the slot is empty and a second `restore_cursor` changes
nothing. -/
theorem c10_restore_cursor_single_slot (s : TerminalState) :
    (s.saved_cursor = none → s.restore_cursor = s)
      ∧ (s.save_cursor.restore_cursor).saved_cursor = none
      ∧ s.save_cursor.restore_cursor.restore_cursor = s.save_cursor.restore_cursor := by
  refine ⟨fun h => ?_, ?_, ?_⟩
  · simp [TerminalState.restore_cursor, h]
  · simp [TerminalState.save_cursor, TerminalState.restore_cursor]
  · simp [TerminalState.save_cursor, TerminalState.restore_cursor]

/-- C10 witness: the theorem instantiated at a fresh 1×1 state. -/
theorem c10_restore_cursor_single_slot_witness :
    (TerminalState.new ⟨1, 1⟩).restore_cursor = TerminalState.new ⟨1, 1⟩
      ∧ ((TerminalState.new ⟨1, 1⟩).save_cursor.restore_cursor).saved_cursor = none :=
  ⟨(c10_restore_cursor_single_slot (TerminalState.new ⟨1, 1⟩)).1 rfl,
   (c10_restore_cursor_single_slot (TerminalState.new ⟨1, 1⟩)).2.1⟩

/-- Pushing a line preserves the capacity field. -/
theorem ScrollbackBuffer.push_max_lines (b : ScrollbackBuffer) (line : List Cell) :
    (b.push line).max_lines = b.max_lines := rfl

/-- One push keeps the length bound when the capacity is positive. -/
theorem ScrollbackBuffer.push_len_le (b : ScrollbackBuffer) (line : List Cell)
    (hmax : 1 ≤ b.max_lines) (h : b.len ≤ b.max_lines) :
    (b.push line).len ≤ b.max_lines := by
  obtain ⟨lines, maxL⟩ := b
  simp only [ScrollbackBuffer.push, ScrollbackBuffer.len] at h hmax ⊢
  have ht : lines.tail.length = lines.length - 1 := List.length_tail lines
  split
  · simp only [List.length_append, List.length_cons, List.length_nil]
    omega
  · next hfull =>
    simp only [List.length_append, List.length_cons, List.length_nil]
    omega

/-- Pushes never change the capacity field. -/
theorem ScrollbackBuffer.foldl_push_max_lines (pushes : List (List Cell))
    (b : ScrollbackBuffer) :
    (pushes.foldl ScrollbackBuffer.push b).max_lines = b.max_lines := by
  induction pushes generalizing b with
  | nil => rfl
  | cons line rest ih =>
    simp only [List.foldl_cons]
    rw [ih]
    rfl

/-- The length bound is preserved along any sequence of pushes. -/
theorem ScrollbackBuffer.foldl_push_len_le (pushes : List (List Cell))
    (b : ScrollbackBuffer) (hmax : 1 ≤ b.max_lines) (h : b.len ≤ b.max_lines) :
    (pushes.foldl ScrollbackBuffer.push b).len ≤ (pushes.foldl ScrollbackBuffer.push b).max_lines := by
  induction pushes generalizing b with
  | nil => exact h
  | cons line rest ih =>
    simp only [List.foldl_cons]
    exact ih (b.push line)
      (by rw [ScrollbackBuffer.push_max_lines]; exact hmax)
      (by rw [ScrollbackBuffer.push_max_lines]; exact b.push_len_le line hmax h)

/-- C8 amended: for every positive capacity `max_lines`, the number of stored
lines never exceeds `max_lines` along any sequence of pushes, and a push at
capacity evicts exactly the oldest line (index 0 of `get_line`), keeping the
newer lines and appending the new one.  (For `max_lines = 0` a push still
stores one line; see the counterexample.) -/
theorem c8_scrollback_bounded_and_evicts_oldest (max : Nat) (hmax : 1 ≤ max) :
    (∀ pushes : List (List Cell),
        (pushes.foldl ScrollbackBuffer.push (ScrollbackBuffer.new max)).len ≤ max)
      ∧ (∀ (b : ScrollbackBuffer) (line : List Cell), b.max_lines = max → b.len = max →
          (b.push line).lines = b.lines.tail ++ [line]) := by
  constructor
  · intro pushes
    have h := ScrollbackBuffer.foldl_push_len_le pushes (ScrollbackBuffer.new max)
      (by simpa [ScrollbackBuffer.new] using hmax)
      (by simp [ScrollbackBuffer.new, ScrollbackBuffer.len])
    have hm : (pushes.foldl ScrollbackBuffer.push (ScrollbackBuffer.new max)).max_lines = max :=
      ScrollbackBuffer.foldl_push_max_lines pushes (ScrollbackBuffer.new max)
    rwa [hm] at h
  · intro b line hb hlen
    unfold ScrollbackBuffer.push
    simp only [ScrollbackBuffer.len] at hlen
    rw [hb, hlen]
    simp

/-- C4 amended: on a state with at least one row, at least two columns (a
`u16` count, so at most 65535), and the cursor column inside the screen,
Backspace decrements the cursor column by 1 saturating at 0 and leaves the
row and every other state component unchanged except that the single cell at
`(cursor row, max(col, 1))` is overwritten with a blank carrying the active
attributes (a write at the cursor's pre-decrement position, or at column 1
when the cursor was already at column 0). -/
theorem c4_backspace_amended (s : TerminalState)
    (hrows : 1 ≤ s.size.rows) (hcols : 2 ≤ s.size.cols) (hmax : s.size.cols ≤ 65535)
    (hcol : s.cursor.position.col < s.size.cols) :
    s.write_char '\x08' =
      { s with
          cursor := s.cursor.set_column (s.cursor.position.col - 1)
          screen_buffer := s.screen_buffer.set_cell
            ⟨s.cursor.position.row, max s.cursor.position.col 1⟩
            (Cell.with_attrs ' ' s.active_attributes) } := by
  obtain ⟨⟨rows, cols⟩, ⟨⟨crow, ccol⟩, csaved, cvis⟩, saved, sb, ab, scb, mode, style,
    attrs, pal, tabs⟩ := s
  simp only at *
  simp only [TerminalState.write_char]
  rw [if_neg (by decide), if_neg (by decide), if_neg (by decide)]
  rw [if_pos trivial]
  simp only [TerminalState.backspace, TerminalState.advance_cursor, Cursor.saturating_left,
    Cursor.move_right, Cursor.set_column, u16SatAdd]
  rw [if_neg (by omega : ¬(rows = 0 ∨ cols = 0))]
  have hmin : min (ccol - 1 + 1) 65535 = ccol - 1 + 1 := by omega
  rw [hmin]
  rw [if_neg (by omega : ¬ cols ≤ ccol - 1 + 1)]
  have hm1 : ccol - 1 + 1 = max ccol 1 := by omega
  rw [hm1]
  have hm2 : max ccol 1 - 1 = ccol - 1 := by omega
  rw [hm2]

/-- C4 witness: the amended theorem at a 2×2 state holding `"AB"` with the
cursor moved onto the `'B'` at `(0,1)`. -/
theorem c4_backspace_amended_witness :
    (let s := AnsiProcessor.process_csi ((TerminalState.new ⟨2, 2⟩).write_str "AB")
        (.cursorPosition 1 2)
     s.write_char '\x08' =
      { s with
          cursor := s.cursor.set_column (s.cursor.position.col - 1)
          screen_buffer := s.screen_buffer.set_cell
            ⟨s.cursor.position.row, max s.cursor.position.col 1⟩
            (Cell.with_attrs ' ' s.active_attributes) }) :=
  c4_backspace_amended
    (AnsiProcessor.process_csi ((TerminalState.new ⟨2, 2⟩).write_str "AB") (.cursorPosition 1 2))
    (by decide) (by decide) (by decide) (by decide)

/-- C8 witness: the amended theorem at capacity 1 with two pushes, plus the
eviction equation at a concrete one-line buffer at capacity. -/
theorem c8_scrollback_bounded_and_evicts_oldest_witness :
    (([[Cell.blank], [Cell.new 'a']].foldl ScrollbackBuffer.push
        (ScrollbackBuffer.new 1)).len ≤ 1)
      ∧ ((ScrollbackBuffer.mk [[Cell.blank]] 1).push [Cell.new 'a']).lines
          = [[Cell.new 'a']] :=
  ⟨(c8_scrollback_bounded_and_evicts_oldest 1 (by decide)).1 [[Cell.blank], [Cell.new 'a']],
   by
    have := (c8_scrollback_bounded_and_evicts_oldest 1 (by decide)).2
      (ScrollbackBuffer.mk [[Cell.blank]] 1) [Cell.new 'a'] rfl rfl
    simpa using this⟩

end Phosphor
